import Mathlib

/-!
# Verification of the go-filecoin `abi` package

Shallow embedding of `src/abi/abi.go`: the `Type` tag enumeration, the
`Value` carrier (tag + untyped payload), `Value.Serialize`, `Deserialize`,
the bulk adapters `ToValues` / `FromValues`, and the `typeTable` /
`TypeMatches` compatibility check.

Modelling choices:
* Go's `Type` is a `uint64`; tags are embedded as `Nat` (the five defined
  members are `0..4`, every other numeral takes the `default` branch exactly
  as in the Go `switch`).
* The untyped `interface{}` payload slot is the inductive `GoVal`: one
  constructor per dynamic type the code distinguishes (`types.Address`,
  non-nil `*big.Int`, `[]byte`, `string`), plus the nil interface and an
  opaque constructor for any other dynamic type, identified by its name.
  `types.Address` is a string-backed opaque byte sequence and Go strings are
  byte sequences, so both payloads are carried as `List Nat` of byte values.
* `reflect.Type` descriptors are the inductive `GoType`; `goTypeOf` is the
  dynamic-type observation that Go's type switches / assertions perform.
* `*big.Int` is embedded as `Int`.  `(*big.Int).Bytes` returns the minimal
  big-endian bytes of the absolute value (`natToBytes i.natAbs`), and
  `SetBytes` reads bytes as an unsigned big-endian magnitude (`bytesToNat`).
* Go slices distinguish `nil` from a non-nil slice; a slice is embedded as
  `Option (List α)` (`none` = nil).  `ToValues` / `FromValues` normalize
  zero-length input to `nil` output, which the embedding keeps.
* Errors are the inductive `ABIError`, one constructor per error shape the
  source produces (`ErrInvalidType`, `typeError{exp, got}`,
  `unrecognized Type: %d`, `unsupported type: %T`); fallible functions
  return `Except ABIError _`.
* Go's `Type` and `Val` field names collide with Lean keywords/builtins, so
  the `Value` fields are spelled `typ` and `Val`.
-/

/-- A `reflect.Type` descriptor: the dynamic types the abi code tells apart,
plus a named opaque descriptor for every other Go type. -/
inductive GoType where
  | addrT
  | bigIntPtr
  | byteSlice
  | strT
  | nilT
  | otherT (name : String)
deriving DecidableEq, Repr

/-- An `interface{}` payload: one constructor per dynamic type the abi code
distinguishes, the nil interface, and opaque values of any other type. -/
inductive GoVal where
  | addr (a : List Nat)
  | intgr (i : Int)
  | bytes (b : List Nat)
  | str (s : List Nat)
  | nilVal
  | other (name : String)
deriving DecidableEq, Repr

/-- The dynamic type of a payload, as observed by Go type assertions and
`reflect.TypeOf`. -/
def goTypeOf : GoVal → GoType
  | .addr _ => .addrT
  | .intgr _ => .bigIntPtr
  | .bytes _ => .byteSlice
  | .str _ => .strT
  | .nilVal => .nilT
  | .other n => .otherT n

/-- `abi.Type` is a `uint64` tag; embedded as `Nat`. -/
abbrev ABIType := Nat

/-- `Invalid = Type(iota)`: the zero tag. -/
def Invalid : ABIType := 0

/-- `Address` tag. -/
def Address : ABIType := 1

/-- `Integer` tag. -/
def Integer : ABIType := 2

/-- `Bytes` tag. -/
def Bytes : ABIType := 3

/-- `String` tag (named `StringT` because `String` is taken by Lean). -/
def StringT : ABIType := 4

/-- `abi.Value`: a tag paired with an untyped payload.  Field `Type` is
spelled `typ` (Lean keyword). -/
structure Value where
  typ : ABIType
  Val : GoVal
deriving DecidableEq, Repr

/-- The error shapes produced by the abi package: `ErrInvalidType`,
`typeError{exp, got}`, `fmt.Errorf("unrecognized Type: %d", t)` and
`fmt.Errorf("unsupported type: %T", v)`. -/
inductive ABIError where
  | invalidType
  | typeMismatch (exp act : GoType)
  | unrecognizedType (t : ABIType)
  | unsupportedType (act : GoType)
deriving DecidableEq, Repr

/-- Minimal big-endian byte encoding of a natural number, as returned by
`(*big.Int).Bytes` for the magnitude: `0` encodes to the empty slice. -/
def natToBytes (n : Nat) : List Nat :=
  if n = 0 then [] else natToBytes (n / 256) ++ [n % 256]
termination_by n
decreasing_by
  exact Nat.div_lt_self (Nat.pos_of_ne_zero (by assumption)) (by norm_num)

/-- Big-endian interpretation of a byte sequence as an unsigned magnitude,
as performed by `(*big.Int).SetBytes`. -/
def bytesToNat (l : List Nat) : Nat :=
  l.foldl (fun acc b => acc * 256 + b) 0

/-- `Value.Serialize` from `abi.go`: switch on the tag, type-assert the
payload, and project it to bytes. -/
def Value.Serialize (av : Value) : Except ABIError (List Nat) :=
  match av.typ with
  | 0 => .error .invalidType
  | 1 =>
    match av.Val with
    | .addr a => .ok a
    | v => .error (.typeMismatch .addrT (goTypeOf v))
  | 2 =>
    match av.Val with
    | .intgr i => .ok (natToBytes i.natAbs)
    | v => .error (.typeMismatch .bigIntPtr (goTypeOf v))
  | 3 =>
    match av.Val with
    | .bytes b => .ok b
    | v => .error (.typeMismatch .byteSlice (goTypeOf v))
  | 4 =>
    match av.Val with
    | .str s => .ok s
    | v => .error (.typeMismatch .strT (goTypeOf v))
  | t => .error (.unrecognizedType t)

/-- `Deserialize` from `abi.go`: switch on the requested tag and wrap the
bytes as the corresponding payload; no length or content checks. -/
def Deserialize (data : List Nat) (t : ABIType) : Except ABIError Value :=
  match t with
  | 0 => .error .invalidType
  | 1 => .ok { typ := 1, Val := .addr data }
  | 2 => .ok { typ := 2, Val := .intgr (Int.ofNat (bytesToNat data)) }
  | 3 => .ok { typ := 3, Val := .bytes data }
  | 4 => .ok { typ := 4, Val := .str data }
  | t => .error (.unrecognizedType t)

/-- The loop body of `ToValues` over the (non-nil) element list: type-switch
each element, assign the matching tag, abort on the first unsupported
element. -/
def convAll : List GoVal → Except ABIError (List Value)
  | [] => .ok []
  | v :: rest =>
    match v with
    | .addr a => (convAll rest).map (fun out => { typ := Address, Val := .addr a } :: out)
    | .intgr i => (convAll rest).map (fun out => { typ := Integer, Val := .intgr i } :: out)
    | .bytes b => (convAll rest).map (fun out => { typ := Bytes, Val := .bytes b } :: out)
    | .str s => (convAll rest).map (fun out => { typ := StringT, Val := .str s } :: out)
    | v => .error (.unsupportedType (goTypeOf v))

/-- `ToValues` from `abi.go`: zero-length input returns nil; otherwise each
element is tagged by its dynamic type, all-or-nothing. -/
def ToValues (i : Option (List GoVal)) : Except ABIError (Option (List Value)) :=
  match i with
  | none => .ok none
  | some l => if l.length = 0 then .ok none else (convAll l).map some

/-- `FromValues` from `abi.go`: zero-length input returns nil; otherwise the
payloads are projected out in order, tags discarded.  The Go function has no
error return. -/
def FromValues (vals : Option (List Value)) : Option (List GoVal) :=
  match vals with
  | none => none
  | some l => if l.length = 0 then none else some (l.map Value.Val)

/-- `typeTable` from `abi.go`: the registry mapping each valid tag to its
expected `reflect.Type`. -/
def typeTable (t : ABIType) : Option GoType :=
  match t with
  | 1 => some .addrT
  | 2 => some .bigIntPtr
  | 3 => some .byteSlice
  | 4 => some .strT
  | _ => none

/-- `TypeMatches` from `abi.go`: look the tag up in the registry and compare
descriptors; absent tags report `false`. -/
def TypeMatches (t : ABIType) (val : GoType) : Bool :=
  match typeTable t with
  | none => false
  | some rt => rt == val

/-- Whether a payload's dynamic type is one of the four representations the
`ToValues` type switch accepts. -/
def supported : GoVal → Bool
  | .addr _ => true
  | .intgr _ => true
  | .bytes _ => true
  | .str _ => true
  | _ => false

/-- The tag `ToValues` assigns to a supported payload. -/
def tagFor : GoVal → ABIType
  | .addr _ => Address
  | .intgr _ => Integer
  | .bytes _ => Bytes
  | .str _ => StringT
  | _ => Invalid

/-- Elements of an embedded Go slice, the nil slice having none. -/
def sliceToList : Option (List α) → List α
  | none => []
  | some l => l

/-- Whether an `Except` computation succeeded (Go: the error result is nil). -/
def exceptIsOk : Except ε α → Bool
  | .ok _ => true
  | .error _ => false

instance {ε α : Type} [DecidableEq ε] [DecidableEq α] : DecidableEq (Except ε α) := fun a b =>
  match a, b with
  | .ok x, .ok y =>
    if h : x = y then .isTrue (by rw [h]) else .isFalse (fun hh => h (Except.ok.inj hh))
  | .error x, .error y =>
    if h : x = y then .isTrue (by rw [h]) else .isFalse (fun hh => h (Except.error.inj hh))
  | .ok _, .error _ => .isFalse (fun hh => Except.noConfusion hh)
  | .error _, .ok _ => .isFalse (fun hh => Except.noConfusion hh)

/-! ## Helper lemmas on the byte encoding -/

theorem bytesToNat_append (l : List Nat) (b : Nat) :
    bytesToNat (l ++ [b]) = bytesToNat l * 256 + b := by
  simp [bytesToNat, List.foldl_append]

theorem natToBytes_zero : natToBytes 0 = [] := by
  rw [natToBytes]
  simp

/-- Round-trip of the magnitude encoding: reading back the minimal
big-endian bytes of `n` recovers `n`. -/
theorem bytesToNat_natToBytes (n : Nat) : bytesToNat (natToBytes n) = n := by
  induction n using Nat.strong_induction_on with
  | _ n ih =>
    rw [natToBytes]
    by_cases h : n = 0
    · simp [h, bytesToNat]
    · simp only [h, if_false]
      rw [bytesToNat_append, ih (n / 256) (Nat.div_lt_self (Nat.pos_of_ne_zero h) (by norm_num))]
      omega

theorem natToBytes_pos (n : Nat) (h : n ≠ 0) :
    natToBytes n = natToBytes (n / 256) ++ [n % 256] := by
  rw [natToBytes]
  simp [h]

theorem natToBytes_300 : natToBytes 300 = [1, 44] := by
  rw [natToBytes_pos 300 (by norm_num)]
  norm_num
  rw [natToBytes_pos 1 (by norm_num)]
  norm_num
  rw [natToBytes_zero]

/-! ## Claim theorems -/

/-- Claim C4: serializing `{Bytes, [0x01,0x02,0x03]}` yields exactly those
bytes and deserializing them with tag `Bytes` recovers the value;
serializing `{Integer, 300}` yields the big-endian minimal bytes
`[0x01, 0x2C]` and deserializing `[0x01, 0x2C]` with tag `Integer` yields
`{Integer, 300}`. -/
theorem concrete_encodings :
    Value.Serialize { typ := Bytes, Val := .bytes [1, 2, 3] } = .ok [1, 2, 3]
    ∧ Deserialize [1, 2, 3] Bytes = .ok { typ := Bytes, Val := .bytes [1, 2, 3] }
    ∧ Value.Serialize { typ := Integer, Val := .intgr 300 } = .ok [1, 44]
    ∧ Deserialize [1, 44] Integer = .ok { typ := Integer, Val := .intgr 300 } := by
  refine ⟨by decide, by decide, ?_, by decide⟩
  show Except.ok (natToBytes (Int.natAbs 300)) = _
  rw [show Int.natAbs 300 = 300 from rfl, natToBytes_300]

/-- Claim C7: `ToValues` on the nil slice and on a non-nil zero-length slice
both return the nil ("no values") slice, and `FromValues` does the same. -/
theorem empty_normalization :
    ToValues (some []) = .ok none ∧ ToValues none = .ok none
    ∧ FromValues (some []) = none ∧ FromValues none = none := by
  decide

/-- Claim C9: the minimal magnitude encoding of zero is the empty byte
sequence — `Serialize {Integer, 0}` returns zero-length bytes, and
`Deserialize` of the empty byte sequence with tag `Integer` returns
`{Integer, 0}`. -/
theorem integer_zero_roundtrip :
    Value.Serialize { typ := Integer, Val := .intgr 0 } = .ok []
    ∧ Deserialize [] Integer = .ok { typ := Integer, Val := .intgr 0 } := by
  refine ⟨?_, by decide⟩
  show Except.ok (natToBytes (Int.natAbs 0)) = _
  rw [show Int.natAbs 0 = 0 from rfl, natToBytes_zero]

/-- Claim C10: for each of the four valid tags, `Serialize` on a `Value`
carrying the nil interface payload takes the type-mismatch branch and
returns a `typeError` instead of crashing. -/
theorem serialize_nil_payload :
    Value.Serialize { typ := Address, Val := .nilVal } = .error (.typeMismatch .addrT .nilT)
    ∧ Value.Serialize { typ := Integer, Val := .nilVal } = .error (.typeMismatch .bigIntPtr .nilT)
    ∧ Value.Serialize { typ := Bytes, Val := .nilVal } = .error (.typeMismatch .byteSlice .nilT)
    ∧ Value.Serialize { typ := StringT, Val := .nilVal } = .error (.typeMismatch .strT .nilT) := by
  decide

/-- Claim C2: `Deserialize data t` fails with `ErrInvalidType` exactly when
`t` is the zero tag, fails with the unrecognized-type error exactly when `t`
is outside the five defined members, and succeeds on every byte sequence
whatsoever for each of the four valid tags. -/
theorem deserialize_classification (data : List Nat) (t : ABIType) :
    (Deserialize data t = .error .invalidType ↔ t = Invalid)
    ∧ (Deserialize data t = .error (.unrecognizedType t) ↔ 5 ≤ t)
    ∧ (exceptIsOk (Deserialize data t) = true
        ↔ (t = Address ∨ t = Integer ∨ t = Bytes ∨ t = StringT)) := by
  rcases t with _ | _ | _ | _ | _ | t <;>
    simp [Deserialize, exceptIsOk, Invalid, Address, Integer, Bytes, StringT]

/-- Claim C8: `TypeMatches t r` is `true` exactly when the registry
`typeTable` associates representation `r` with tag `t`; in particular it is
`false` for the `Invalid` tag (and, since the registry has no entry for
them, for every unrecognized tag and every mismatch). -/
theorem typeMatches_spec (t : ABIType) (r : GoType) :
    (TypeMatches t r = true ↔ typeTable t = some r) ∧ TypeMatches Invalid r = false := by
  constructor
  · constructor
    · intro h
      unfold TypeMatches at h
      rcases heq : typeTable t with _ | rt
      · rw [heq] at h
        exact absurd h (by simp)
      · rw [heq] at h
        exact congrArg some (eq_of_beq h)
    · intro h
      unfold TypeMatches
      rw [h]
      simp
  · rfl

/-! ## Helper lemmas on `convAll` -/

theorem convAll_all_supported (l : List GoVal) (h : ∀ v ∈ l, supported v = true) :
    convAll l = .ok (l.map fun v => { typ := tagFor v, Val := v }) := by
  induction l with
  | nil => rfl
  | cons v rest ih =>
    have hv : supported v = true := h v (List.mem_cons_self v rest)
    have hrest := ih (fun w hw => h w (List.mem_cons_of_mem v hw))
    cases v <;> simp [supported] at hv <;>
      simp [convAll, hrest, tagFor, Except.map]

theorem convAll_find_err (l : List GoVal) (u : GoVal)
    (h : l.find? (fun v => !supported v) = some u) :
    convAll l = .error (.unsupportedType (goTypeOf u)) := by
  induction l with
  | nil => simp [List.find?] at h
  | cons v rest ih =>
    by_cases hv : supported v = true
    · rw [List.find?_cons_of_neg] at h
      · have := ih h
        cases v <;> simp [supported] at hv <;> simp [convAll, this, Except.map]
      · simp [hv]
    · have hvf : supported v = false := by revert hv; cases supported v <;> simp
      rw [List.find?_cons_of_pos] at h
      · cases h
        cases u <;> simp [supported] at hvf <;> rfl
      · simp [hvf]

/-- Claim C6: if every element of the list is one of the four supported
representations, `ToValues` succeeds and tags each element by its dynamic
type in order; if the list holds an unsupported element, `ToValues` returns
the unsupported-type error naming the first offending element's dynamic
type, and it fails (returning no partial result) whenever an unsupported
element occurs anywhere in the list. -/
theorem toValues_classification :
    (∀ l : List GoVal, (∀ v ∈ l, supported v = true) →
      (ToValues (some l)).map sliceToList
        = .ok (l.map fun v => { typ := tagFor v, Val := v }))
    ∧ (∀ (l : List GoVal) (u : GoVal), l.find? (fun v => !supported v) = some u →
      ToValues (some l) = .error (.unsupportedType (goTypeOf u)))
    ∧ (∀ l : List GoVal, (∃ v ∈ l, supported v = false) →
      exceptIsOk (ToValues (some l)) = false) := by
  refine ⟨?_, ?_, ?_⟩
  · intro l h
    cases l with
    | nil => rfl
    | cons v rest =>
      simp [ToValues, convAll_all_supported _ h, Except.map, sliceToList]
  · intro l u h
    have hne : l ≠ [] := by
      intro hl
      subst hl
      simp [List.find?] at h
    have hlen : ¬ l.length = 0 := by simpa [List.length_eq_zero] using hne
    simp [ToValues, hlen, convAll_find_err l u h, Except.map]
  · intro l h
    have hsome : ∃ u, l.find? (fun v => !supported v) = some u := by
      rcases h with ⟨v, hv, hvf⟩
      refine Option.isSome_iff_exists.mp ?_
      rw [List.find?_isSome]
      exact ⟨v, hv, by simp [hvf]⟩
    rcases hsome with ⟨u, hu⟩
    have hlen : ¬ l.length = 0 := by
      rcases h with ⟨v, hv, _⟩
      cases l
      · cases hv
      · simp
    simp [ToValues, hlen, convAll_find_err l u hu, Except.map, exceptIsOk]

/-- Witness for C6: concrete instances of the three parts. -/
theorem toValues_classification_witness :
    (ToValues (some [GoVal.addr [9]])).map sliceToList
      = .ok [{ typ := tagFor (GoVal.addr [9]), Val := GoVal.addr [9] }]
    ∧ ToValues (some [GoVal.bytes [7], GoVal.nilVal])
      = .error (.unsupportedType (goTypeOf GoVal.nilVal))
    ∧ exceptIsOk (ToValues (some [GoVal.bytes [7], GoVal.other "bool"])) = false :=
  ⟨toValues_classification.1 [GoVal.addr [9]] (by decide),
   toValues_classification.2.1 [GoVal.bytes [7], GoVal.nilVal] GoVal.nilVal (by decide),
   toValues_classification.2.2 [GoVal.bytes [7], GoVal.other "bool"]
     ⟨GoVal.other "bool", by simp, rfl⟩⟩

/-- Claim C5: converting a list of supported native values to tagged values
and back is the identity on the elements (in order), and `FromValues` is an
infallible pure projection of the payloads. -/
theorem fromValues_toValues :
    (∀ xs : Option (List GoVal), (∀ v ∈ sliceToList xs, supported v = true) →
      (ToValues xs).map (fun ys => sliceToList (FromValues ys)) = .ok (sliceToList xs))
    ∧ (∀ vals : Option (List Value),
      sliceToList (FromValues vals) = (sliceToList vals).map Value.Val) := by
  constructor
  · intro xs h
    cases xs with
    | none => rfl
    | some l =>
      cases l with
      | nil => rfl
      | cons v rest =>
        have hconv := convAll_all_supported (v :: rest) (by simpa [sliceToList] using h)
        simp [ToValues, hconv, Except.map, FromValues, sliceToList, List.map_map,
          Function.comp]
        have hid : (Value.Val ∘ fun v => ({ typ := tagFor v, Val := v } : Value)) = id := rfl
        rw [hid, List.map_id]
  · intro vals
    cases vals with
    | none => rfl
    | some l =>
      cases l with
      | nil => rfl
      | cons v rest => simp [FromValues, sliceToList]

/-- Witness for C5: round-trip and projection at concrete lists. -/
theorem fromValues_toValues_witness :
    (ToValues (some [GoVal.str [104, 105], GoVal.bytes [7]])).map
        (fun ys => sliceToList (FromValues ys))
      = .ok (sliceToList (some [GoVal.str [104, 105], GoVal.bytes [7]]))
    ∧ sliceToList (FromValues (some [{ typ := Bytes, Val := GoVal.bytes [7] }]))
      = (sliceToList (some [{ typ := Bytes, Val := GoVal.bytes [7] }])).map Value.Val :=
  ⟨fromValues_toValues.1 (some [GoVal.str [104, 105], GoVal.bytes [7]]) (by decide),
   fromValues_toValues.2 (some [{ typ := Bytes, Val := GoVal.bytes [7] }])⟩

/-- A positive `TypeMatches` verdict pins down the registry entry. -/
theorem typeMatches_table (t : ABIType) (r : GoType) (h : TypeMatches t r = true) :
    typeTable t = some r := by
  unfold TypeMatches at h
  rcases heq : typeTable t with _ | rt
  · rw [heq] at h
    exact absurd h (by simp)
  · rw [heq] at h
    exact congrArg some (eq_of_beq h)

/-- Claim C1: for each valid tag and a payload of the matching dynamic type,
deserializing the serialized bytes with the same tag recovers the value —
except that for `Integer` this holds only for non-negative payloads: a
negative integer serializes to its magnitude bytes and deserializes to its
negation (the sign is lost). -/
theorem serialize_deserialize_roundtrip :
    (∀ v : Value, TypeMatches v.typ (goTypeOf v.Val) = true →
      (∀ i : Int, v.Val = GoVal.intgr i → 0 ≤ i) →
      (v.Serialize).bind (fun bs => Deserialize bs v.typ) = .ok v)
    ∧ (∀ i : Int, i < 0 →
      Value.Serialize { typ := Integer, Val := .intgr i } = .ok (natToBytes i.natAbs)
      ∧ Deserialize (natToBytes i.natAbs) Integer
          = .ok { typ := Integer, Val := .intgr (-i) }
      ∧ GoVal.intgr (-i) ≠ GoVal.intgr i) := by
  constructor
  · rintro ⟨t, val⟩ hm hint
    rcases t with _ | _ | _ | _ | _ | t
    · exact absurd (typeMatches_table _ _ hm) (by simp [typeTable])
    · have hg : goTypeOf val = .addrT := by
        simpa [typeTable] using (typeMatches_table _ _ hm).symm
      rcases val with a | i | b | s | _ | n <;> simp [goTypeOf] at hg
      rfl
    · have hg : goTypeOf val = .bigIntPtr := by
        simpa [typeTable] using (typeMatches_table _ _ hm).symm
      rcases val with a | i | b | s | _ | n <;> simp [goTypeOf] at hg
      have hi : 0 ≤ i := hint i rfl
      simp [Value.Serialize, Except.bind, Deserialize, bytesToNat_natToBytes]
      omega
    · have hg : goTypeOf val = .byteSlice := by
        simpa [typeTable] using (typeMatches_table _ _ hm).symm
      rcases val with a | i | b | s | _ | n <;> simp [goTypeOf] at hg
      rfl
    · have hg : goTypeOf val = .strT := by
        simpa [typeTable] using (typeMatches_table _ _ hm).symm
      rcases val with a | i | b | s | _ | n <;> simp [goTypeOf] at hg
      rfl
    · exact absurd (typeMatches_table _ _ hm) (by simp [typeTable])
  · intro i hi
    refine ⟨rfl, ?_, ?_⟩
    · simp [Deserialize, Integer, bytesToNat_natToBytes, abs_of_neg hi]
    · intro h
      have := GoVal.intgr.inj h
      omega

/-- Witness for C1: the round-trip at `{Bytes, [1, 2]}` and the magnitude
decode of the negative integer `-3`. -/
theorem serialize_deserialize_roundtrip_witness :
    (Value.Serialize { typ := Bytes, Val := .bytes [1, 2] }).bind
        (fun bs => Deserialize bs Bytes)
      = .ok { typ := Bytes, Val := .bytes [1, 2] }
    ∧ Deserialize (natToBytes (Int.natAbs (-3))) Integer
      = .ok { typ := Integer, Val := .intgr (-(-3 : Int)) } :=
  ⟨serialize_deserialize_roundtrip.1 { typ := Bytes, Val := .bytes [1, 2] } (by decide)
      (fun i h => GoVal.noConfusion h),
   (serialize_deserialize_roundtrip.2 (-3) (by norm_num)).2.1⟩

/-- Claim C3: `Serialize` fails with `ErrInvalidType` on the zero tag, with
a `typeError` carrying the expected and actual representations on a valid
tag whose payload has the wrong dynamic type, with the unrecognized-type
error on any tag outside the registry, and succeeds in every remaining
case. -/
theorem serialize_classification (v : Value) :
    (v.typ = Invalid → v.Serialize = .error .invalidType)
    ∧ (∀ rt, typeTable v.typ = some rt → goTypeOf v.Val ≠ rt →
        v.Serialize = .error (.typeMismatch rt (goTypeOf v.Val)))
    ∧ (v.typ ≠ Invalid → typeTable v.typ = none →
        v.Serialize = .error (.unrecognizedType v.typ))
    ∧ (TypeMatches v.typ (goTypeOf v.Val) = true → exceptIsOk v.Serialize = true) := by
  obtain ⟨t, val⟩ := v
  refine ⟨?_, ?_, ?_, ?_⟩
  · intro h
    have h' : t = 0 := h
    subst h'
    rfl
  · intro rt hrt hne
    rcases t with _ | _ | _ | _ | _ | t
    · simp [typeTable] at hrt
    · have hr : rt = .addrT := by simpa [typeTable] using hrt.symm
      subst hr
      rcases val with a | i | b | s | _ | n <;> first | rfl | exact absurd rfl hne
    · have hr : rt = .bigIntPtr := by simpa [typeTable] using hrt.symm
      subst hr
      rcases val with a | i | b | s | _ | n <;> first | rfl | exact absurd rfl hne
    · have hr : rt = .byteSlice := by simpa [typeTable] using hrt.symm
      subst hr
      rcases val with a | i | b | s | _ | n <;> first | rfl | exact absurd rfl hne
    · have hr : rt = .strT := by simpa [typeTable] using hrt.symm
      subst hr
      rcases val with a | i | b | s | _ | n <;> first | rfl | exact absurd rfl hne
    · simp [typeTable] at hrt
  · intro hne htab
    rcases t with _ | _ | _ | _ | _ | t
    · exact absurd rfl hne
    · simp [typeTable] at htab
    · simp [typeTable] at htab
    · simp [typeTable] at htab
    · simp [typeTable] at htab
    · rfl
  · intro hm
    rcases t with _ | _ | _ | _ | _ | t
    · exact absurd (typeMatches_table _ _ hm) (by simp [typeTable])
    · have hg : goTypeOf val = .addrT := by
        simpa [typeTable] using (typeMatches_table _ _ hm).symm
      rcases val with a | i | b | s | _ | n <;> simp [goTypeOf] at hg
      rfl
    · have hg : goTypeOf val = .bigIntPtr := by
        simpa [typeTable] using (typeMatches_table _ _ hm).symm
      rcases val with a | i | b | s | _ | n <;> simp [goTypeOf] at hg
      rfl
    · have hg : goTypeOf val = .byteSlice := by
        simpa [typeTable] using (typeMatches_table _ _ hm).symm
      rcases val with a | i | b | s | _ | n <;> simp [goTypeOf] at hg
      rfl
    · have hg : goTypeOf val = .strT := by
        simpa [typeTable] using (typeMatches_table _ _ hm).symm
      rcases val with a | i | b | s | _ | n <;> simp [goTypeOf] at hg
      rfl
    · exact absurd (typeMatches_table _ _ hm) (by simp [typeTable])

/-- Witness for C3: each error branch and the success branch at a concrete
value. -/
theorem serialize_classification_witness :
    Value.Serialize { typ := Invalid, Val := .nilVal } = .error .invalidType
    ∧ Value.Serialize { typ := Address, Val := .bytes [7] }
      = .error (.typeMismatch .addrT .byteSlice)
    ∧ Value.Serialize { typ := 9, Val := .nilVal } = .error (.unrecognizedType 9)
    ∧ exceptIsOk (Value.Serialize { typ := StringT, Val := .str [104, 105] }) = true :=
  ⟨(serialize_classification { typ := Invalid, Val := .nilVal }).1 rfl,
   (serialize_classification { typ := Address, Val := .bytes [7] }).2.1 .addrT rfl (by decide),
   (serialize_classification { typ := 9, Val := .nilVal }).2.2.1 (by decide) rfl,
   (serialize_classification { typ := StringT, Val := .str [104, 105] }).2.2.2 (by decide)⟩

/-- Witness for C2: the invalid-tag failure, an unrecognized tag, and a
success at a concrete byte sequence. -/
theorem deserialize_classification_witness :
    Deserialize [5] Invalid = .error .invalidType
    ∧ Deserialize [5] 7 = .error (.unrecognizedType 7)
    ∧ exceptIsOk (Deserialize [5] StringT) = true :=
  ⟨(deserialize_classification [5] Invalid).1.mpr rfl,
   (deserialize_classification [5] 7).2.1.mpr (by norm_num),
   (deserialize_classification [5] StringT).2.2.mpr (Or.inr (Or.inr (Or.inr rfl)))⟩

/-- Witness for C8: a matching pair and the `Invalid` tag at a concrete
representation. -/
theorem typeMatches_spec_witness :
    TypeMatches Integer GoType.bigIntPtr = true
    ∧ TypeMatches Invalid GoType.bigIntPtr = false :=
  ⟨(typeMatches_spec Integer GoType.bigIntPtr).1.mpr rfl,
   (typeMatches_spec Invalid GoType.bigIntPtr).2⟩
